import Mathlib

/-!
Verification of the post-processing pipeline of the `super_critical_water`
repository (`post_proc.py`, `rdf.py`): a shallow embedding of its line-oriented
parsers (`avg_density`, `last_diff_visc`, `process_rdf`), of the directory-name
regex `TP_DIR_RE`, and of the scan/aggregate/report logic of `main` and
`write_results_txt`, together with theorems settling the specification claims.

Numeric values are modelled as rationals (`ℚ`): every literal appearing in the
input files under consideration is a finite decimal/scientific literal, whose
Python `float` value is abstracted to its exact rational value.
-/

namespace SCW

/-- Python whitespace characters recognised by `str.strip` / `str.split`
(ASCII subset: space, tab, newline, carriage return, vertical tab, form feed). -/
def pyWS (c : Char) : Bool :=
  c == ' ' || c == '\t' || c == '\n' || c == '\r' || c == Char.ofNat 11 || c == Char.ofNat 12

/-- Python `str.strip()` on a character list: drop leading and trailing whitespace. -/
def pstrip (cs : List Char) : List Char :=
  ((cs.dropWhile pyWS).reverse.dropWhile pyWS).reverse

/-- Worker for `splitWS`: accumulates the current token (reversed). -/
def splitWSAux : List Char → List Char → List (List Char)
  | [], cur => if cur.isEmpty then [] else [cur.reverse]
  | c :: cs, cur =>
    if pyWS c then
      if cur.isEmpty then splitWSAux cs [] else cur.reverse :: splitWSAux cs []
    else splitWSAux cs (c :: cur)

/-- Python `str.split()` with no argument: split on runs of whitespace,
discarding empty tokens. -/
def splitWS (cs : List Char) : List (List Char) := splitWSAux cs []

/-- Worker for `splitComma`. -/
def splitCommaAux : List Char → List Char → List (List Char)
  | [], cur => [cur.reverse]
  | c :: cs, cur =>
    if c == ',' then cur.reverse :: splitCommaAux cs []
    else splitCommaAux cs (c :: cur)

/-- Python `str.split(",")`: split on every comma, keeping empty segments. -/
def splitComma (cs : List Char) : List (List Char) := splitCommaAux cs []

/-- Python `item.split(":", 1)` combined with the `":" in item` test:
split at the first colon, `none` when there is no colon. -/
def splitFirstColon : List Char → Option (List Char × List Char)
  | [] => none
  | c :: r =>
    if c == ':' then some ([], r)
    else (splitFirstColon r).map (fun p => (c :: p.1, p.2))

/-- Numeric value of a digit string (most significant first). -/
def digitsToNat (ds : List Char) : Nat :=
  ds.foldl (fun a c => 10 * a + (c.toNat - 48)) 0

/-- Optional leading sign; returns (isNegative, rest). -/
def parseSign : List Char → Bool × List Char
  | c :: r =>
    if c == '-' then (true, r)
    else if c == '+' then (false, r) else (false, c :: r)
  | [] => (false, [])

/-- Python `float(s)` on finite decimal/scientific literals, as an exact
rational: optional surrounding whitespace, optional sign, digits with an
optional fractional part, optional `e`/`E` exponent.  Returns `none` exactly
when `float` raises `ValueError` on such inputs.  (The `inf`/`nan` and
digit-underscore forms accepted by Python are outside the numeric model and do
not occur in the inputs the claims quantify over.) -/
def parseFloat? (cs0 : List Char) : Option ℚ :=
  let cs := pstrip cs0
  let sgn := parseSign cs
  let ipSpan := List.span Char.isDigit sgn.2
  let mant : Option (ℚ × List Char) :=
    match ipSpan.2 with
    | '.' :: r =>
      let fpSpan := List.span Char.isDigit r
      if ipSpan.1.isEmpty && fpSpan.1.isEmpty then none
      else some ((digitsToNat ipSpan.1 : ℚ)
                  + (digitsToNat fpSpan.1 : ℚ) / (10 : ℚ) ^ fpSpan.1.length, fpSpan.2)
    | _ => if ipSpan.1.isEmpty then none else some ((digitsToNat ipSpan.1 : ℚ), ipSpan.2)
  match mant with
  | none => none
  | some (m, rest) =>
    let signed : ℚ := if sgn.1 then -m else m
    match rest with
    | [] => some signed
    | c :: r =>
      if c == 'e' || c == 'E' then
        let esgn := parseSign r
        let edSpan := List.span Char.isDigit esgn.2
        if edSpan.1.isEmpty || !edSpan.2.isEmpty then none
        else
          some (signed * (10 : ℚ) ^
            (if esgn.1 then -(digitsToNat edSpan.1 : Int) else (digitsToNat edSpan.1 : Int)))
      else none

/-- Error message of `avg_density` when no sample is found. -/
def errNoDensity : String := "No density data lines found"

/-- One step of the accumulation loop of `avg_density` in `post_proc.py`:
strip the line, skip it when blank or a `#` comment, otherwise try to read the
last whitespace-separated token as a float, skipping the line on failure. -/
def avgStep (acc : ℚ × Nat) (line : String) : ℚ × Nat :=
  let s := pstrip line.data
  if s.isEmpty || s.headD ' ' == '#' then acc
  else
    match (splitWS s).getLast? with
    | none => acc
    | some tok =>
      match parseFloat? tok with
      | none => acc
      | some v => (acc.1 + v, acc.2 + 1)

/-- `avg_density` of `post_proc.py` on the list of lines of the file:
mean of the retained samples, error when there are none. -/
def avg_density (lines : List String) : Except String ℚ :=
  let r := lines.foldl avgStep (0, 0)
  if r.2 = 0 then .error errNoDensity else .ok (r.1 / (r.2 : ℚ))

/-- Formalised from the spec wording for the density parser: the sample
contributed by one line, namely the float value of the last whitespace
token of a non-comment, non-blank line, `none` for skipped lines. -/
def densitySample? (line : String) : Option ℚ :=
  let s := pstrip line.data
  if s.isEmpty || s.headD ' ' == '#' then none
  else ((splitWS s).getLast?).bind parseFloat?

/-- Formalised from the spec wording: the retained samples of a density file. -/
def densitySamples (lines : List String) : List ℚ :=
  lines.filterMap densitySample?

/-- Error message of `last_diff_visc` when the file has no retained line. -/
def errNoData : String := "No data lines found"

/-- Error message standing for the `ValueError` raised by `float(...)`. -/
def errValue : String := "could not convert string to float"

/-- Error message standing for the `KeyError` raised by a dict lookup. -/
def errKey : String := "KeyError"

/-- The last stripped non-blank, non-comment line of the file, as computed by
the first loop of `last_diff_visc` in `post_proc.py`. -/
def lastRetained? (lines : List String) : Option (List Char) :=
  lines.foldl
    (fun acc line =>
      let s := pstrip line.data
      if !s.isEmpty && !(s.headD ' ' == '#') then some s else acc)
    none

/-- The dict-building loop of `last_diff_visc`: split the line on commas,
strip each segment, skip segments without a colon, split the rest at the
first colon and parse the value as a float (a failure aborts the parse with
the `ValueError`).  The accumulator is consed in front, which together with
first-match lookup models Python dict overwrite semantics. -/
def buildFields : List (List Char) → List (List Char × ℚ) →
    Except String (List (List Char × ℚ))
  | [], acc => .ok acc
  | item :: rest, acc =>
    let it := pstrip item
    match splitFirstColon it with
    | none => buildFields rest acc
    | some kv =>
      match parseFloat? (pstrip kv.2) with
      | none => .error errValue
      | some x => buildFields rest ((pstrip kv.1, x) :: acc)

/-- First-match association lookup (the observable part of a Python dict
whose later insertions are consed in front). -/
def fieldLookup (k : List Char) : List (List Char × ℚ) → Option ℚ
  | [] => none
  | p :: rest => if p.1 = k then some p.2 else fieldLookup k rest

/-- `last_diff_visc` of `post_proc.py` on the list of lines of the file:
parse the final retained line into a key/value mapping and return the
`D[H2O]` and `viscosity` entries, erroring when there is no retained line,
when a value fails to parse, or when either key is absent. -/
def last_diff_visc (lines : List String) : Except String (ℚ × ℚ) :=
  match lastRetained? lines with
  | none => .error errNoData
  | some s =>
    match buildFields (splitComma s) [] with
    | .error e => .error e
    | .ok fields =>
      match fieldLookup ("D[H2O]".data) fields, fieldLookup ("viscosity".data) fields with
      | some d, some v => .ok (d, v)
      | _, _ => .error errKey

/-- The compiled pattern `TP_DIR_RE = re.compile(r"^T_(\d+)_P_(\d+)$")` of
`post_proc.py`, applied via `TP_DIR_RE.match(name)` with its two captured
groups converted by `int(...)`: literal `T_`, one or more digits, literal
`_P_`, one or more digits, then the end of the name (Python `$` also accepts
a single trailing newline).  Digits are ASCII digits (the directory names in
scope are ASCII). -/
def TP_DIR_RE_match (name : String) : Option (Nat × Nat) :=
  match name.data with
  | 'T' :: '_' :: rest =>
    let s1 := List.span Char.isDigit rest
    if s1.1.isEmpty then none
    else
      match s1.2 with
      | '_' :: 'P' :: '_' :: rest2 =>
        let s2 := List.span Char.isDigit rest2
        if s2.1.isEmpty then none
        else if s2.2 = [] || s2.2 = ['\n'] then some (digitsToNat s1.1, digitsToNat s2.1)
        else none
      | _ => none
  | _ => none

/-- A parsed RDF block: a rectangular numeric table (`np.array(current, float)`). -/
abbrev Block := List (List ℚ)

/-- Error message of `process_rdf` when the file contains no block. -/
def errNoBlocks : String := "No RDF blocks found"

/-- Error message standing for the `AttributeError` raised by `current.append`
when `current` is still `None`. -/
def errNoneAppend : String := "NoneType object has no attribute append"

/-- Error message standing for the `ValueError` numpy raises on ragged input. -/
def errRagged : String := "setting an array element with a sequence"

/-- Error message standing for the `IndexError` raised by `b[:, j]` on an
array with too few columns (or on an empty, hence one-dimensional, array). -/
def errIndex : String := "index out of bounds"

/-- Unreachable guard value: `np.mean` is only ever applied after the
`if not blocks` check of `process_rdf`, so the list is never empty. -/
def errMeanEmpty : String := "mean of empty sequence"

/-- The loop state of `process_rdf`: completed blocks plus the rows of the
block currently being collected (`None` before the first header line). -/
structure RdfState where
  blocks : List Block
  current : Option (List (List ℚ))

/-- The skip condition of the `process_rdf` loop:
`line.startswith("#") or not line.strip()` (note: `startswith` on the raw,
unstripped line). -/
def rdfSkip (line : String) : Bool :=
  line.data.headD ' ' == '#' || (pstrip line.data).isEmpty

/-- `np.array(current, float)`: succeeds on a rectangular list of rows,
raises numpy's `ValueError` on ragged input.  An empty list yields an empty
(one-dimensional) array, modelled as the empty table. -/
def npArray2D (rows : List (List ℚ)) : Except String Block :=
  match rows with
  | [] => .ok []
  | r :: rs =>
    if rs.all (fun x => x.length = r.length) then .ok (r :: rs) else .error errRagged

/-- `[float(x) for x in parts]`, failing with `ValueError` on a bad token. -/
def parseRow : List (List Char) → Except String (List ℚ)
  | [] => .ok []
  | t :: ts =>
    match parseFloat? t with
    | none => .error errValue
    | some v => (parseRow ts).map (fun r => v :: r)

/-- One iteration of the line loop of `process_rdf`: skip comments/blanks; a
two-token line flushes the current block (if any) and starts a new one; any
other line is appended to the current block, which raises the
`AttributeError` when no header has been seen yet (Python evaluates
`current.append` before the list comprehension argument). -/
def rdfStep (st : RdfState) (line : String) : Except String RdfState :=
  if rdfSkip line then .ok st
  else
    let parts := splitWS line.data
    if parts.length = 2 then
      match st.current with
      | none => .ok ⟨st.blocks, some []⟩
      | some c =>
        match npArray2D c with
        | .error e => .error e
        | .ok b => .ok ⟨st.blocks ++ [b], some []⟩
    else
      match st.current with
      | none => .error errNoneAppend
      | some c =>
        match parseRow parts with
        | .error e => .error e
        | .ok row => .ok ⟨st.blocks, some (c ++ [row])⟩

/-- Initial loop state of `process_rdf`: `blocks = []`, `current = None`. -/
def initRdfState : RdfState := ⟨[], none⟩

/-- The line loop of `process_rdf`, with the exception propagation of the
Python `for` statement. -/
def runRdfLoop : RdfState → List String → Except String RdfState
  | st, [] => .ok st
  | st, line :: rest =>
    match rdfStep st line with
    | .error e => .error e
    | .ok st2 => runRdfLoop st2 rest

/-- The trailing `if current is not None` flush after the loop. -/
def flushFinal (st : RdfState) : Except String (List Block) :=
  match st.current with
  | none => .ok st.blocks
  | some c =>
    match npArray2D c with
    | .error e => .error e
    | .ok b => .ok (st.blocks ++ [b])

/-- The block-collection phase of `process_rdf` (the same algorithm as in
`rdf.py`): run the line loop, then flush the trailing block. -/
def scanBlocks (lines : List String) : Except String (List Block) :=
  match runRdfLoop initRdfState lines with
  | .error e => .error e
  | .ok st => flushFinal st

/-- `b[:, j]` on a parsed block: the `j`-th column, raising `IndexError`
when the block is empty (one-dimensional array) or a row is too short. -/
def getCol (b : Block) (j : Nat) : Except String (List ℚ) :=
  if b.isEmpty then .error errIndex
  else if b.all (fun r => j < r.length) then .ok (b.map (fun r => r.getD j 0))
  else .error errIndex

/-- Element-wise sum of two vectors (`np` broadcasting is not involved:
`np.mean` only sees equal-length rows here, checked before summing). -/
def vecAdd (a b : List ℚ) : List ℚ := List.zipWith (fun x y => x + y) a b

/-- `np.mean(vs, axis=0)` on a list of one-dimensional arrays: requires all
lengths equal (ragged input raises `ValueError`), then divides the
element-wise sum by the count. -/
def npMeanAx0 : List (List ℚ) → Except String (List ℚ)
  | [] => .error errMeanEmpty
  | v :: vs =>
    if vs.all (fun w => w.length = v.length) then
      .ok ((vs.foldl vecAdd v).map (fun x => x / ((vs.length + 1 : Nat) : ℚ)))
    else .error errRagged

/-- The list comprehension `[b[:, j] for b in blocks]`, with exception
propagation. -/
def colsOf (j : Nat) : List Block → Except String (List (List ℚ))
  | [] => .ok []
  | b :: bs =>
    match getCol b j with
    | .error e => .error e
    | .ok v =>
      match colsOf j bs with
      | .error e => .error e
      | .ok vs => .ok (v :: vs)

/-- The mean of column `j` across blocks:
`np.mean([b[:, j] for b in blocks], axis=0)`. -/
def meanCol (j : Nat) (bs : List Block) : Except String (List ℚ) :=
  match colsOf j bs with
  | .error e => .error e
  | .ok cs => npMeanAx0 cs

/-- The averaging phase of `process_rdf`, after block collection: `r` is
column 1 of the first block taken verbatim, and columns 2, 4, 6 are averaged
across blocks, in the evaluation order of the Python source. -/
def rdfOfBlocks : List Block → Except String (List ℚ × List ℚ × List ℚ × List ℚ)
  | [] => .error errNoBlocks
  | b0 :: rest =>
    match getCol b0 1 with
    | .error e => .error e
    | .ok r =>
      match meanCol 2 (b0 :: rest) with
      | .error e => .error e
      | .ok g77 =>
        match meanCol 4 (b0 :: rest) with
        | .error e => .error e
        | .ok g88 =>
          match meanCol 6 (b0 :: rest) with
          | .error e => .error e
          | .ok g78 => .ok (r, g77, g88, g78)

/-- `process_rdf` of `post_proc.py` on the list of lines of the file. -/
def process_rdf (lines : List String) :
    Except String (List ℚ × List ℚ × List ℚ × List ℚ) :=
  match scanBlocks lines with
  | .error e => .error e
  | .ok bs => rdfOfBlocks bs

/-- Formalised from the spec wording: the `j`-th column of a block. -/
def colOf (b : Block) (j : Nat) : List ℚ :=
  b.map (fun r => r.getD j 0)

/-- Formalised from the spec wording: the element-wise mean across blocks of
the `j`-th column, at radial-bin index `i`. -/
def meanAcross (bs : List Block) (j i : Nat) : ℚ :=
  (bs.map (fun b => (colOf b j).getD i 0)).sum / (bs.length : ℚ)

/-- The first retained (non-comment, non-blank, in the sense of the
`process_rdf` loop) line of the file. -/
def firstRetained? (lines : List String) : Option String :=
  (lines.filter (fun l => !rdfSkip l)).head?

/-- A condition key `(T, P)`. -/
abbrev Key := Nat × Nat

/-- One file found by `root.rglob(...)`, in encounter order.  `tp` is the
outcome of `find_tp_ancestor` on the file's directory (the filesystem walk
itself is abstracted to its outcome), `path` identifies the file, `lines`
gives the contents the parsers will see when the path is opened. -/
structure FoundFile where
  tp : Option Key
  path : String
  lines : List String

/-- Association-list lookup keyed on condition keys (first match). -/
def alookup {α : Type} (k : Key) : List (Key × α) → Option α
  | [] => none
  | p :: rest => if p.1 = k then some p.2 else alookup k rest

/-- One `paths.setdefault((T, P), f)` step of the scan loops in `main`:
files without a matching ancestor are skipped silently; a key already
present keeps its first file. -/
def setdefaultStep (acc : List (Key × FoundFile)) (f : FoundFile) :
    List (Key × FoundFile) :=
  match f.tp with
  | none => acc
  | some k =>
    match alookup k acc with
    | some _ => acc
    | none => acc ++ [(k, f)]

/-- A scan loop of `main` over one `rglob` result list
(`dens_paths` / `calc_paths`). -/
def collectPaths (files : List FoundFile) : List (Key × FoundFile) :=
  files.foldl setdefaultStep []

/-- Ascending lexicographic order on keys: the order of
`sorted(..., key=lambda k: (k[0], k[1]))` in `main` and of Python tuple
comparison in `sorted(records.keys())` in `write_results_txt`. -/
def keyLE (a b : Key) : Prop := a.1 < b.1 ∨ (a.1 = b.1 ∧ a.2 ≤ b.2)

instance : DecidableRel keyLE := fun a b => by unfold keyLE; infer_instance

/-- `all_keys = sorted(set(dens_paths) | set(calc_paths), key=...)`: the
deduplicated union of both key sets in ascending lexicographic order (on a
duplicate-free list every correct sort agrees with Python's). -/
def allKeys (dfiles cfiles : List FoundFile) : List Key :=
  List.insertionSort keyLE
    (((collectPaths dfiles).map Prod.fst ++ (collectPaths cfiles).map Prod.fst).dedup)

/-- The per-key record of `main`: each measurement is optional. -/
structure Record where
  density : Option ℚ
  self_diffusion : Option ℚ
  viscosity : Option ℚ
deriving DecidableEq

/-- `records.setdefault((T, P), {})`: the record with no field populated. -/
def emptyRecord : Record := ⟨none, none, none⟩

/-- The `try`-block of the aggregation loop of `main` for one key.  Parses
are attempted only when both files are present (`if dfile and cfile`);
`density` is assigned before `last_diff_visc` is called, so a key/value
failure leaves density set, while a density failure leaves everything
unset. -/
def buildRecord (dfile cfile : Option (List String)) : Record :=
  match dfile, cfile with
  | some d, some c =>
    match avg_density d with
    | .error _ => emptyRecord
    | .ok dens =>
      match last_diff_visc c with
      | .error _ => ⟨some dens, none, none⟩
      | .ok dv => ⟨some dens, some dv.1, some dv.2⟩
  | _, _ => emptyRecord

/-- The aggregation loop of `main`: one record per key of `all_keys`, fed by
the first-wins path maps. -/
def buildRecords (dfiles cfiles : List FoundFile) : List (Key × Record) :=
  (allKeys dfiles cfiles).map fun k =>
    (k, buildRecord ((alookup k (collectPaths dfiles)).map FoundFile.lines)
        ((alookup k (collectPaths cfiles)).map FoundFile.lines))

/-- A table cell of `results.txt`: a formatted numeric value (abstracted to
its rational value — the fixed-width decimal/scientific digit rendering of a
float is outside the numeric model), the `MISSING` placeholder, or the blank
padding written in the diffusion/viscosity columns of an incomplete row. -/
inductive Cell
  | num (q : ℚ)
  | missing
  | blank
deriving DecidableEq

/-- One data row of `results.txt`. -/
structure Row where
  T : Nat
  P : Nat
  density : Cell
  diffusion : Cell
  viscosity : Cell
deriving DecidableEq

/-- The per-key row logic of `write_results_txt`: when all three fields are
floats the numeric row is written; otherwise the row is
`T P MISSING <blank> <blank>` (the placeholder sits in the density column). -/
def rowOf (k : Key) (r : Record) : Row :=
  match r.density, r.self_diffusion, r.viscosity with
  | some a, some b, some c => ⟨k.1, k.2, .num a, .num b, .num c⟩
  | _, _, _ => ⟨k.1, k.2, .missing, .blank, .blank⟩

/-- The data rows of `write_results_txt` (the constant header line is not
modelled): records sorted by key, one row per record. -/
def writeResultsRows (records : List (Key × Record)) : List Row :=
  (List.insertionSort keyLE (records.map Prod.fst)).map fun k =>
    rowOf k ((alookup k records).getD emptyRecord)

/-- The report produced by `main` up to `write_results_txt`:
scan, aggregate, write. -/
def resultRows (dfiles cfiles : List FoundFile) : List Row :=
  writeResultsRows (buildRecords dfiles cfiles)

/-- Names of the record fields assigned by the aggregation loop. -/
inductive FieldName
  | density
  | self_diffusion
  | viscosity
deriving DecidableEq

/-- The sequence of record-field assignments the `try`-block of `main`
performs for one key, in program order. -/
def recWrites (k : Key) (dfile cfile : Option (List String)) :
    List (Key × FieldName) :=
  match dfile, cfile with
  | some d, some c =>
    match avg_density d with
    | .error _ => []
    | .ok _ =>
      match last_diff_visc c with
      | .error _ => [(k, .density)]
      | .ok _ => [(k, .density), (k, .self_diffusion), (k, .viscosity)]
  | _, _ => []

/-- The record-field assignments of the whole aggregation loop, in program
order, one group per key. -/
def keyWrites (d c : Key → Option (List String)) : List Key → List (Key × FieldName)
  | [] => []
  | k :: ks => recWrites k (d k) (c k) ++ keyWrites d c ks

/-- The full record-assignment trace of `main` on the given scan results. -/
def allWrites (dfiles cfiles : List FoundFile) : List (Key × FieldName) :=
  keyWrites (fun k => (alookup k (collectPaths dfiles)).map FoundFile.lines)
    (fun k => (alookup k (collectPaths cfiles)).map FoundFile.lines)
    (allKeys dfiles cfiles)

/-- Formalised from the spec wording: the first file in encounter order whose
ancestor key is `k` (the file the stable first-wins policy must keep). -/
def firstFor (files : List FoundFile) (k : Key) : Option FoundFile :=
  (files.filterMap (fun f => if f.tp = some k then some f else none)).head?

/-- Density file of the end-to-end scenarios. -/
def densLinesEx : List String := ["1 2 3 1000.0", "1 2 3 1002.0", "# comment"]

/-- Key/value file of the end-to-end scenarios. -/
def calcLinesEx : List String :=
  ["time:0, D[H2O]:1e-9, viscosity:0.5", "time:1, D[H2O]:2e-9, viscosity:0.6"]

/-- Scanner outcome with density files for two keys. -/
def dfilesEx : List FoundFile :=
  [⟨some (300, 1), "runA/GlobalPropsTimeAvg.prop", densLinesEx⟩,
   ⟨some (400, 1), "runB/GlobalPropsTimeAvg.prop", densLinesEx⟩]

/-- Scanner outcome with a key/value file for the first key only. -/
def cfilesEx : List FoundFile :=
  [⟨some (300, 1), "runA/GlobalPropCalculated.prop", calcLinesEx⟩]

end SCW

namespace SCW

/-- `avgStep` contributes exactly the sample `densitySample?` extracts. -/
theorem avgStep_eq (acc : ℚ × Nat) (line : String) :
    avgStep acc line =
      match densitySample? line with
      | none => acc
      | some v => (acc.1 + v, acc.2 + 1) := by
  unfold avgStep densitySample?
  by_cases h1 : (pstrip line.data = [] ∨ (pstrip line.data).head?.getD ' ' = '#')
  · simp [h1]
  · cases hg : (splitWS (pstrip line.data)).getLast? with
    | none => simp [h1, hg]
    | some tok => cases hp : parseFloat? tok <;> simp [h1, hg, hp]

/-- The accumulation loop of `avg_density` totals the retained samples. -/
theorem foldl_avgStep : ∀ (lines : List String) (a : ℚ) (n : Nat),
    lines.foldl avgStep (a, n) =
      (a + (densitySamples lines).sum, n + (densitySamples lines).length)
  | [], a, n => by simp [densitySamples]
  | line :: rest, a, n => by
    rw [List.foldl_cons, avgStep_eq]
    cases h : densitySample? line with
    | none =>
      have hcons : densitySamples (line :: rest) = densitySamples rest := by
        simp [densitySamples, List.filterMap_cons, h]
      rw [hcons]
      exact foldl_avgStep rest a n
    | some v =>
      have hcons : densitySamples (line :: rest) = v :: densitySamples rest := by
        simp [densitySamples, List.filterMap_cons, h]
      rw [hcons, foldl_avgStep rest (a + v) (n + 1)]
      simp only [Prod.mk.injEq, List.sum_cons, List.length_cons]
      constructor
      · ring
      · omega

/-- Claim C3: for every density file, `avg_density` returns the arithmetic
mean of the float values of the last whitespace-separated token of each
non-comment, non-blank line, skipping lines whose last token does not parse
as a float; on the `1000.0`/`1002.0` example it returns `1001.0`; and it
raises the empty-data error exactly when zero valid samples are found. -/
theorem claim_C3 :
    (∀ lines : List String,
      avg_density lines =
        if densitySamples lines = [] then Except.error errNoDensity
        else Except.ok ((densitySamples lines).sum / ((densitySamples lines).length : ℚ))) ∧
    avg_density densLinesEx = Except.ok 1001 ∧
    avg_density ["# comment", "", "   "] = Except.error errNoDensity := by
  refine ⟨fun lines => ?_, by with_unfolding_all rfl, by with_unfolding_all rfl⟩
  unfold avg_density
  rw [foldl_avgStep lines 0 0]
  by_cases h : densitySamples lines = []
  · simp [h]
  · have hne : (densitySamples lines).length ≠ 0 := by
      simpa [List.length_eq_zero] using h
    simp [h, hne]

/-- Claim C7: the directory-key pattern `^T_(\d+)_P_(\d+)$` matches the full
directory name: it accepts `T_313_P_1` and `T_100_P_20` with keys (313,1)
and (100,20), rejects `Temp_313_Press_1` and `T_313P_1`, and (full-name
anchoring) rejects names that merely contain a matching substring. -/
theorem claim_C7 :
    TP_DIR_RE_match ("T_313_P_1") = some (313, 1) ∧
    TP_DIR_RE_match ("T_100_P_20") = some (100, 20) ∧
    TP_DIR_RE_match ("Temp_313_Press_1") = none ∧
    TP_DIR_RE_match ("T_313P_1") = none ∧
    TP_DIR_RE_match ("xT_313_P_1") = none ∧
    TP_DIR_RE_match ("T_313_P_1x") = none := by decide

/-- Unfolding equation of the `process_rdf` line loop. -/
theorem runRdfLoop_cons (st : RdfState) (l : String) (rest : List String) :
    runRdfLoop st (l :: rest) =
      match rdfStep st l with
      | .error e => .error e
      | .ok st2 => runRdfLoop st2 rest := rfl

/-- A skipped line leaves `process_rdf` unchanged. -/
theorem process_rdf_cons_skip (l : String) (rest : List String)
    (hs : rdfSkip l = true) : process_rdf (l :: rest) = process_rdf rest := by
  unfold process_rdf scanBlocks
  rw [runRdfLoop_cons]
  unfold rdfStep
  simp [hs]

/-- Claim C10: when a data row (token count other than two) appears before
any two-token header line, `process_rdf` fails with the append-on-`None`
attribute error, not with the `No RDF blocks found` empty-data error. -/
theorem claim_C10 (lines : List String) (s : String)
    (h1 : firstRetained? lines = some s)
    (h2 : (splitWS s.data).length ≠ 2) :
    process_rdf lines = Except.error errNoneAppend ∧
    process_rdf lines ≠ Except.error errNoBlocks := by
  have key : process_rdf lines = Except.error errNoneAppend := by
    induction lines with
    | nil => simp [firstRetained?] at h1
    | cons l rest ih =>
      by_cases hs : rdfSkip l = true
      · have h1r : firstRetained? rest = some s := by
          simpa [firstRetained?, hs] using h1
        rw [process_rdf_cons_skip l rest hs]
        exact ih h1r
      · have hsl : s = l := by
          have : (some l : Option String) = some s := by
            simpa [firstRetained?, hs] using h1
          exact (Option.some.injEq _ _ ▸ this).symm
        subst hsl
        unfold process_rdf scanBlocks
        rw [runRdfLoop_cons]
        unfold rdfStep
        simp [hs, h2, initRdfState]
  refine ⟨key, ?_⟩
  rw [key]
  intro hcontra
  have : errNoneAppend = errNoBlocks := by
    exact Except.error.inj hcontra
  simp [errNoneAppend, errNoBlocks] at this

/-- Witness for C10 at a concrete one-line file whose first retained line
has seven tokens. -/
theorem claim_C10_witness :
    firstRetained? ["0 1 2 3 4 5 6"] = some ("0 1 2 3 4 5 6") ∧
    (splitWS ("0 1 2 3 4 5 6").data).length ≠ 2 ∧
    process_rdf ["0 1 2 3 4 5 6"] = Except.error errNoneAppend :=
  ⟨by decide, by decide, (claim_C10 ["0 1 2 3 4 5 6"] ("0 1 2 3 4 5 6")
    (by decide) (by decide)).1⟩

/-- Unfolding equation of the dict-building loop of `last_diff_visc`. -/
theorem buildFields_cons (item : List Char) (rest : List (List Char))
    (acc : List (List Char × ℚ)) :
    buildFields (item :: rest) acc =
      match splitFirstColon (pstrip item) with
      | none => buildFields rest acc
      | some kv =>
        match parseFloat? (pstrip kv.2) with
        | none => .error errValue
        | some x => buildFields rest ((pstrip kv.1, x) :: acc) := rfl

/-- Colonless segments are invisible to the dict-building loop. -/
theorem buildFields_filter : ∀ (items : List (List Char)) (acc : List (List Char × ℚ)),
    buildFields items acc =
      buildFields (items.filter (fun it => (splitFirstColon (pstrip it)).isSome)) acc
  | [], _ => rfl
  | item :: rest, acc => by
    rw [List.filter_cons, buildFields_cons]
    cases hc : splitFirstColon (pstrip item) with
    | none =>
      simp only [hc, Option.isSome_none, Bool.false_eq_true, if_false]
      exact buildFields_filter rest acc
    | some kv =>
      simp only [hc, Option.isSome_some, if_true, buildFields_cons]
      cases hp : parseFloat? (pstrip kv.2) with
      | none => simp [hp]
      | some x =>
        simp only [hp]
        exact buildFields_filter rest _

/-- A segment with a colon whose value does not parse as a float makes the
dict-building loop fail with the `ValueError`. -/
theorem buildFields_badValue : ∀ (items : List (List Char)) (acc : List (List Char × ℚ)),
    (∃ it ∈ items, ∃ kv, splitFirstColon (pstrip it) = some kv ∧
        parseFloat? (pstrip kv.2) = none) →
    buildFields items acc = Except.error errValue
  | [], _, h => by simp at h
  | item :: rest, acc, h => by
    rw [buildFields_cons]
    cases hc : splitFirstColon (pstrip item) with
    | none =>
      simp only
      apply buildFields_badValue rest acc
      rcases h with ⟨it, hmem, kv, hkv, hbad⟩
      rcases List.mem_cons.mp hmem with rfl | hmem2
      · rw [hc] at hkv; exact absurd hkv (by simp)
      · exact ⟨it, hmem2, kv, hkv, hbad⟩
    | some kv0 =>
      simp only
      cases hp : parseFloat? (pstrip kv0.2) with
      | none => simp [hp]
      | some x =>
        simp only [hp]
        apply buildFields_badValue rest _
        rcases h with ⟨it, hmem, kv, hkv, hbad⟩
        rcases List.mem_cons.mp hmem with rfl | hmem2
        · rw [hc] at hkv
          cases hkv
          rw [hp] at hbad
          exact absurd hbad (by simp)
        · exact ⟨it, hmem2, kv, hkv, hbad⟩

/-- Claim C4: only the final retained line determines the result of
`last_diff_visc` (the concrete two-line scenario returns `(2e-9, 0.6)`), a
file with no retained line errors, and a final line missing either required
key errors with the key error — propagated as an `Except`, not a crash. -/
theorem claim_C4 :
    (∀ lines1 lines2 : List String, lastRetained? lines1 = lastRetained? lines2 →
      last_diff_visc lines1 = last_diff_visc lines2) ∧
    last_diff_visc calcLinesEx = Except.ok (2 / 1000000000, 6 / 10) ∧
    (∀ lines : List String, lastRetained? lines = none →
      last_diff_visc lines = Except.error errNoData) ∧
    (∀ (lines : List String) (s : List Char) (fields : List (List Char × ℚ)),
      lastRetained? lines = some s →
      buildFields (splitComma s) [] = Except.ok fields →
      fieldLookup ("D[H2O]".data) fields = none ∨
        fieldLookup ("viscosity".data) fields = none →
      last_diff_visc lines = Except.error errKey) := by
  refine ⟨?_, by with_unfolding_all rfl, ?_, ?_⟩
  · intro l1 l2 h
    unfold last_diff_visc
    rw [h]
  · intro lines h
    unfold last_diff_visc
    rw [h]
  · intro lines s fields h1 h2 h3
    unfold last_diff_visc
    rw [h1]
    dsimp only
    rw [h2]
    rcases h3 with h3 | h3
    · cases hv : fieldLookup ("viscosity".data) fields <;> simp [h3, hv]
    · cases hd : fieldLookup ("D[H2O]".data) fields <;> simp [h3, hd]

/-- Witness for C4: a prepended comment line does not change the result;
empty and missing-key files error, all at concrete inputs. -/
theorem claim_C4_witness :
    last_diff_visc (("# header") :: calcLinesEx) = last_diff_visc calcLinesEx ∧
    last_diff_visc ["# x"] = Except.error errNoData ∧
    last_diff_visc ["time:1, D[H2O]:2e-9"] = Except.error errKey := by
  refine ⟨claim_C4.1 _ _ (by with_unfolding_all rfl),
    claim_C4.2.2.1 ["# x"] (by with_unfolding_all rfl),
    claim_C4.2.2.2 ["time:1, D[H2O]:2e-9"] (("time:1, D[H2O]:2e-9").data)
      [(("D[H2O]").data, 2 / 1000000000), (("time").data, 1)]
      (by with_unfolding_all rfl) (by with_unfolding_all rfl)
      (Or.inr (by with_unfolding_all rfl))⟩

/-- Claim C9: in `last_diff_visc`, a colonless segment of the final retained
line is silently skipped, but a segment whose text after the first colon
does not parse as a float fails the entire parse with the `ValueError` —
unlike the per-line skipping of the density parser. -/
theorem claim_C9 :
    (∀ (items : List (List Char)) (acc : List (List Char × ℚ)),
      buildFields items acc =
        buildFields (items.filter (fun it => (splitFirstColon (pstrip it)).isSome)) acc) ∧
    (∀ (lines : List String) (s : List Char),
      lastRetained? lines = some s →
      (∃ it ∈ splitComma s, ∃ kv, splitFirstColon (pstrip it) = some kv ∧
          parseFloat? (pstrip kv.2) = none) →
      last_diff_visc lines = Except.error errValue) := by
  refine ⟨buildFields_filter, ?_⟩
  intro lines s h1 h2
  unfold last_diff_visc
  rw [h1]
  dsimp only
  rw [buildFields_badValue (splitComma s) [] h2]

/-- Witness for C9 at concrete segment lists and a concrete file whose last
line has an unparseable value. -/
theorem claim_C9_witness :
    buildFields [("no colon segment".data), ("a:1".data)] [] =
      buildFields (([("no colon segment".data), ("a:1".data)]).filter
        (fun it => (splitFirstColon (pstrip it)).isSome)) [] ∧
    last_diff_visc ["D[H2O]:abc, viscosity:0.5"] = Except.error errValue :=
  ⟨claim_C9.1 _ [],
    claim_C9.2 ["D[H2O]:abc, viscosity:0.5"] (("D[H2O]:abc, viscosity:0.5").data)
      (by with_unfolding_all rfl)
      ⟨("D[H2O]:abc".data), by decide,
        ⟨(("D[H2O]").data, ("abc").data), by decide, by decide⟩⟩⟩

/-- A successful `b[:, j]` extraction yields exactly the `j`-th column. -/
theorem getCol_ok {b : Block} {j : Nat} {v : List ℚ}
    (h : getCol b j = Except.ok v) : v = colOf b j := by
  unfold getCol at h
  split at h
  · simp at h
  · split at h
    · exact (Except.ok.inj h).symm
    · simp at h

/-- A successful column comprehension yields exactly the mapped columns. -/
theorem colsOf_ok : ∀ {bs : List Block} {j : Nat} {ys : List (List ℚ)},
    colsOf j bs = Except.ok ys → ys = bs.map (fun b => colOf b j)
  | [], _, ys, h => by
    simp only [colsOf] at h
    simp [← Except.ok.inj h]
  | b :: bs, j, ys, h => by
    unfold colsOf at h
    cases hv : getCol b j with
    | error e => rw [hv] at h; simp at h
    | ok v =>
      rw [hv] at h
      cases hrest : colsOf j bs with
      | error e => rw [hrest] at h; simp at h
      | ok vs =>
        rw [hrest] at h
        rw [← Except.ok.inj h, List.map_cons, ← colsOf_ok hrest, ← getCol_ok hv]

/-- Length of an element-wise vector sum over equal-length vectors. -/
theorem foldl_vecAdd_length : ∀ (vs : List (List ℚ)) (v : List ℚ),
    (∀ w ∈ vs, w.length = v.length) → (vs.foldl vecAdd v).length = v.length
  | [], _, _ => rfl
  | w :: ws, v, h => by
    rw [List.foldl_cons]
    have hw : w.length = v.length := h w (by simp)
    have hlen : (vecAdd v w).length = v.length := by simp [vecAdd, hw]
    have hws : ∀ u ∈ ws, u.length = (vecAdd v w).length := by
      intro u hu
      rw [hlen]
      exact h u (List.mem_cons_of_mem _ hu)
    rw [foldl_vecAdd_length ws (vecAdd v w) hws, hlen]

/-- Entry of an element-wise sum of two sufficiently long vectors. -/
theorem vecAdd_getD : ∀ (a b : List ℚ) (i : Nat), i < a.length → i < b.length →
    (vecAdd a b).getD i 0 = a.getD i 0 + b.getD i 0
  | [], _, i, ha, _ => by simp at ha
  | _ :: _, [], i, _, hb => by simp at hb
  | x :: xs, y :: ys, 0, _, _ => by simp [vecAdd]
  | x :: xs, y :: ys, i + 1, ha, hb => by
    simp only [vecAdd, List.zipWith_cons_cons, List.getD_cons_succ]
    exact vecAdd_getD xs ys i (by simpa using ha) (by simpa using hb)

/-- Entry of the running element-wise sum over equal-length vectors. -/
theorem foldl_vecAdd_getD : ∀ (vs : List (List ℚ)) (v : List ℚ) (i : Nat),
    (∀ w ∈ vs, w.length = v.length) → i < v.length →
    (vs.foldl vecAdd v).getD i 0 = v.getD i 0 + (vs.map (fun w => w.getD i 0)).sum
  | [], _, _, _, _ => by simp
  | w :: ws, v, i, h, hi => by
    rw [List.foldl_cons]
    have hw : w.length = v.length := h w (by simp)
    have hlen : (vecAdd v w).length = v.length := by simp [vecAdd, hw]
    have hws : ∀ u ∈ ws, u.length = (vecAdd v w).length := by
      intro u hu
      rw [hlen]
      exact h u (List.mem_cons_of_mem _ hu)
    rw [foldl_vecAdd_getD ws (vecAdd v w) i hws (by rw [hlen]; exact hi)]
    rw [vecAdd_getD v w i hi (by rw [hw]; exact hi)]
    simp only [List.map_cons, List.sum_cons]
    ring

/-- Entry of a vector scaled through `map` by a division. -/
theorem getD_map_div (l : List ℚ) (c : ℚ) (i : Nat) (hi : i < l.length) :
    (l.map (fun x => x / c)).getD i 0 = l.getD i 0 / c := by
  have h2 : i < (l.map (fun x => x / c)).length := by simpa using hi
  rw [List.getD_eq_getElem _ _ h2, List.getD_eq_getElem _ _ hi, List.getElem_map]

/-- Characterisation of a successful `np.mean(..., axis=0)`. -/
theorem npMeanAx0_ok {vs : List (List ℚ)} {v : List ℚ} {g : List ℚ}
    (h : npMeanAx0 (v :: vs) = Except.ok g) :
    g.length = v.length ∧
    ∀ i, i < v.length →
      g.getD i 0 = ((v :: vs).map (fun w => w.getD i 0)).sum / (((v :: vs).length : Nat) : ℚ) := by
  unfold npMeanAx0 at h
  dsimp only at h
  by_cases hall : (vs.all (fun w => decide (w.length = v.length))) = true
  · rw [if_pos hall] at h
    have hlens : ∀ w ∈ vs, w.length = v.length := by
      intro w hw
      exact of_decide_eq_true (List.all_eq_true.mp hall w hw)
    have hg : g = (vs.foldl vecAdd v).map (fun x => x / ((vs.length + 1 : Nat) : ℚ)) :=
      (Except.ok.inj h).symm
    have hfl : (vs.foldl vecAdd v).length = v.length := foldl_vecAdd_length vs v hlens
    constructor
    · rw [hg]
      simpa using hfl
    · intro i hi
      rw [hg, getD_map_div _ _ i (by rw [hfl]; exact hi)]
      rw [foldl_vecAdd_getD vs v i hlens hi]
      simp [List.map_cons, List.sum_cons, List.length_cons]
  · rw [if_neg hall] at h
    simp at h

/-- Characterisation of a successful per-column average. -/
theorem meanCol_ok_cons {j : Nat} {b0 : Block} {rest : List Block} {g : List ℚ}
    (h : meanCol j (b0 :: rest) = Except.ok g) :
    g.length = b0.length ∧
    ∀ i, i < b0.length → g.getD i 0 = meanAcross (b0 :: rest) j i := by
  unfold meanCol at h
  cases hcs : colsOf j (b0 :: rest) with
  | error e => rw [hcs] at h; simp at h
  | ok cs =>
    rw [hcs] at h
    dsimp only at h
    have hcs2 : cs = colOf b0 j :: rest.map (fun b => colOf b j) := colsOf_ok hcs
    rw [hcs2] at h
    obtain ⟨hlen, hg⟩ := npMeanAx0_ok h
    have hcl : (colOf b0 j).length = b0.length := by simp [colOf]
    refine ⟨by rw [hlen, hcl], ?_⟩
    intro i hi
    rw [hg i (by rw [hcl]; exact hi)]
    unfold meanAcross
    rw [← List.map_cons (fun b => colOf b j) b0 rest, List.map_map]
    simp only [List.map_cons, List.sum_cons, List.length_cons, List.length_map]
    rfl

/-- Claim C5: for every RDF file with at least one collected block, a
successful `process_rdf` returns the radial column taken verbatim from the
first block and the element-wise across-block means of columns 2, 4 and 6;
with zero blocks it raises the empty-data error. -/
theorem claim_C5 (lines : List String) (bs : List Block)
    (h : scanBlocks lines = Except.ok bs) :
    (bs = [] → process_rdf lines = Except.error errNoBlocks) ∧
    (∀ r g77 g88 g78,
      process_rdf lines = Except.ok (r, g77, g88, g78) →
      ∃ b0 rest, bs = b0 :: rest ∧ r = colOf b0 1 ∧
        (g77.length = b0.length ∧
          ∀ i, i < b0.length → g77.getD i 0 = meanAcross bs 2 i) ∧
        (g88.length = b0.length ∧
          ∀ i, i < b0.length → g88.getD i 0 = meanAcross bs 4 i) ∧
        (g78.length = b0.length ∧
          ∀ i, i < b0.length → g78.getD i 0 = meanAcross bs 6 i)) := by
  constructor
  · intro hnil
    subst hnil
    unfold process_rdf
    rw [h]
    rfl
  · intro r g77 g88 g78 hok
    unfold process_rdf at hok
    rw [h] at hok
    dsimp only at hok
    cases bs with
    | nil => simp [rdfOfBlocks] at hok
    | cons b0 rest =>
      unfold rdfOfBlocks at hok
      dsimp only at hok
      cases h1 : getCol b0 1 with
      | error e => rw [h1] at hok; simp at hok
      | ok r0 =>
        rw [h1] at hok
        dsimp only at hok
        cases h2 : meanCol 2 (b0 :: rest) with
        | error e => rw [h2] at hok; simp at hok
        | ok m2 =>
          rw [h2] at hok
          dsimp only at hok
          cases h4 : meanCol 4 (b0 :: rest) with
          | error e => rw [h4] at hok; simp at hok
          | ok m4 =>
            rw [h4] at hok
            dsimp only at hok
            cases h6 : meanCol 6 (b0 :: rest) with
            | error e => rw [h6] at hok; simp at hok
            | ok m6 =>
              rw [h6] at hok
              dsimp only at hok
              have hinj := Except.ok.inj hok
              obtain ⟨hr, hg2, hg4, hg6⟩ :
                  r0 = r ∧ m2 = g77 ∧ m4 = g88 ∧ m6 = g78 := by
                simpa [Prod.ext_iff] using hinj
              subst hr hg2 hg4 hg6
              exact ⟨b0, rest, rfl, getCol_ok h1,
                meanCol_ok_cons h2, meanCol_ok_cons h4, meanCol_ok_cons h6⟩

/-- Witness for C5 at a concrete comment-only file with zero blocks. -/
theorem claim_C5_witness : process_rdf ["# x"] = Except.error errNoBlocks :=
  (claim_C5 ["# x"] [] (by with_unfolding_all rfl)).1 rfl

/-- A nonempty block with sufficiently long rows yields its column. -/
theorem getCol_ok_of (b : Block) (j : Nat) (hb : b ≠ [])
    (hc : ∀ row ∈ b, j < row.length) : getCol b j = Except.ok (colOf b j) := by
  have h1 : b.isEmpty = false := by
    cases b with
    | nil => exact absurd rfl hb
    | cons x xs => rfl
  have h2 : b.all (fun r => decide (j < r.length)) = true := by
    rw [List.all_eq_true]
    intro r hr
    exact decide_eq_true (hc r hr)
  simp [getCol, h1, h2, colOf]

/-- RDF file whose two blocks share a row count but differ in column count. -/
def rdfMismatchCols : List String :=
  ["1 2", "0 1 2 3 4 5 6", "7 8", "0 1 2 3 4 5 6 7"]

/-- RDF file whose two blocks have different row counts. -/
def rdfMismatchRows : List String :=
  ["1 2", "0 1 2 3 4 5 6", "0 1 2 3 4 5 6", "7 8", "0 1 2 3 4 5 6"]

/-- Counterexample to C2: the collected blocks have one row each but 7
columns versus 8 columns — a mismatched column layout — and `process_rdf`
averages them successfully instead of rejecting them. -/
theorem claim_C2_counterexample :
    scanBlocks rdfMismatchCols =
      Except.ok [[[0, 1, 2, 3, 4, 5, 6]], [[0, 1, 2, 3, 4, 5, 6, 7]]] ∧
    process_rdf rdfMismatchCols = Except.ok ([1], [2], [4], [6]) := by
  constructor
  · with_unfolding_all rfl
  · with_unfolding_all rfl

/-- Averaging two blocks of equal row count succeeds whenever every row has
the 7 columns the fixed indices read, regardless of column-count mismatch. -/
theorem meanCol_pair_ok (j : Nat) (b1 b2 : Block) (hj : j < 7)
    (hb1 : b1 ≠ []) (hb2 : b2 ≠ [])
    (hc1 : ∀ row ∈ b1, 6 < row.length) (hc2 : ∀ row ∈ b2, 6 < row.length)
    (hlen : b1.length = b2.length) :
    meanCol j [b1, b2] =
      Except.ok ((List.zipWith (fun x y => x + y) (colOf b1 j) (colOf b2 j)).map
        (fun x => x / ((2 : Nat) : ℚ))) := by
  have hg1 : getCol b1 j = Except.ok (colOf b1 j) :=
    getCol_ok_of b1 j hb1 (fun row hr => lt_of_lt_of_le hj (hc1 row hr))
  have hg2 : getCol b2 j = Except.ok (colOf b2 j) :=
    getCol_ok_of b2 j hb2 (fun row hr => lt_of_lt_of_le hj (hc2 row hr))
  simp only [meanCol, colsOf, hg1, hg2]
  unfold npMeanAx0
  dsimp only
  have hall : ([colOf b2 j].all (fun w => decide (w.length = (colOf b1 j).length))) = true := by
    simp [colOf, hlen]
  rw [if_pos hall]
  simp [vecAdd]

/-- Averaging two blocks of different row counts fails with the numpy
ragged-input error (hit during averaging, not by an explicit validation). -/
theorem meanCol_pair_ragged (j : Nat) (b1 b2 : Block) (hj : j < 7)
    (hb1 : b1 ≠ []) (hb2 : b2 ≠ [])
    (hc1 : ∀ row ∈ b1, 6 < row.length) (hc2 : ∀ row ∈ b2, 6 < row.length)
    (hlen : b1.length ≠ b2.length) :
    meanCol j [b1, b2] = Except.error errRagged := by
  have hg1 : getCol b1 j = Except.ok (colOf b1 j) :=
    getCol_ok_of b1 j hb1 (fun row hr => lt_of_lt_of_le hj (hc1 row hr))
  have hg2 : getCol b2 j = Except.ok (colOf b2 j) :=
    getCol_ok_of b2 j hb2 (fun row hr => lt_of_lt_of_le hj (hc2 row hr))
  simp only [meanCol, colsOf, hg1, hg2]
  unfold npMeanAx0
  dsimp only
  have hall : ([colOf b2 j].all (fun w => decide (w.length = (colOf b1 j).length))) = false := by
    simp [colOf]
    omega
  rw [if_neg (by simp [hall])]

/-- Amended C2: the RDF parser performs no explicit layout validation.
Two collected blocks of equal row count whose rows all have at least the 7
columns read by the fixed indices are averaged even when their column
counts differ; two blocks of different row counts make `process_rdf` fail,
but only incidentally, with the numpy ragged-input error raised during
averaging. -/
theorem claim_C2_amended :
    (∀ (lines : List String) (b1 b2 : Block),
      scanBlocks lines = Except.ok [b1, b2] →
      b1 ≠ [] → b2 ≠ [] →
      (∀ row ∈ b1, 6 < row.length) → (∀ row ∈ b2, 6 < row.length) →
      b1.length = b2.length →
      ∃ out, process_rdf lines = Except.ok out) ∧
    (∀ (lines : List String) (b1 b2 : Block),
      scanBlocks lines = Except.ok [b1, b2] →
      b1 ≠ [] → b2 ≠ [] →
      (∀ row ∈ b1, 6 < row.length) → (∀ row ∈ b2, 6 < row.length) →
      b1.length ≠ b2.length →
      process_rdf lines = Except.error errRagged) := by
  constructor
  · intro lines b1 b2 hscan hb1 hb2 hc1 hc2 hlen
    unfold process_rdf
    rw [hscan]
    dsimp only
    unfold rdfOfBlocks
    dsimp only
    rw [getCol_ok_of b1 1 hb1 (fun row hr => lt_of_lt_of_le (by norm_num) (hc1 row hr))]
    rw [meanCol_pair_ok 2 b1 b2 (by norm_num) hb1 hb2 hc1 hc2 hlen]
    rw [meanCol_pair_ok 4 b1 b2 (by norm_num) hb1 hb2 hc1 hc2 hlen]
    rw [meanCol_pair_ok 6 b1 b2 (by norm_num) hb1 hb2 hc1 hc2 hlen]
    exact ⟨_, rfl⟩
  · intro lines b1 b2 hscan hb1 hb2 hc1 hc2 hlen
    unfold process_rdf
    rw [hscan]
    dsimp only
    unfold rdfOfBlocks
    dsimp only
    rw [getCol_ok_of b1 1 hb1 (fun row hr => lt_of_lt_of_le (by norm_num) (hc1 row hr))]
    rw [meanCol_pair_ragged 2 b1 b2 (by norm_num) hb1 hb2 hc1 hc2 hlen]

/-- Witness for the amended C2 at concrete files: mismatched column layouts
average successfully, mismatched row counts raise the ragged-input error. -/
theorem claim_C2_witness :
    (∃ out, process_rdf rdfMismatchCols = Except.ok out) ∧
    process_rdf rdfMismatchRows = Except.error errRagged :=
  ⟨claim_C2_amended.1 rdfMismatchCols [[0, 1, 2, 3, 4, 5, 6]] [[0, 1, 2, 3, 4, 5, 6, 7]]
      (by with_unfolding_all rfl) (by simp) (by simp)
      (by intro row hr; simp at hr; simp [hr]) (by intro row hr; simp at hr; simp [hr])
      (by simp),
    claim_C2_amended.2 rdfMismatchRows
      [[0, 1, 2, 3, 4, 5, 6], [0, 1, 2, 3, 4, 5, 6]] [[0, 1, 2, 3, 4, 5, 6]]
      (by with_unfolding_all rfl) (by simp) (by simp)
      (by intro row hr; simp at hr; simp [hr])
      (by intro row hr; simp at hr; simp [hr])
      (by simp)⟩

/-- A skipped line leaves the loop state unchanged. -/
theorem rdfStep_skip (st : RdfState) (l : String) (hs : rdfSkip l = true) :
    rdfStep st l = .ok st := by
  unfold rdfStep
  simp [hs]

/-- Action of a two-token header line. -/
theorem rdfStep_header (st : RdfState) (l : String) (hs : rdfSkip l = false)
    (hp : (splitWS l.data).length = 2) :
    rdfStep st l =
      match st.current with
      | none => .ok ⟨st.blocks, some []⟩
      | some c =>
        match npArray2D c with
        | .error e => .error e
        | .ok b => .ok ⟨st.blocks ++ [b], some []⟩ := by
  unfold rdfStep
  simp [hs, hp]

/-- Action of a data line. -/
theorem rdfStep_data (st : RdfState) (l : String) (hs : rdfSkip l = false)
    (hp : (splitWS l.data).length ≠ 2) :
    rdfStep st l =
      match st.current with
      | none => .error errNoneAppend
      | some c =>
        match parseRow (splitWS l.data) with
        | .error e => .error e
        | .ok row => .ok ⟨st.blocks, some (c ++ [row])⟩ := by
  unfold rdfStep
  simp [hs, hp]

/-- Splitting the line loop at a list append. -/
theorem runRdfLoop_append (l1 l2 : List String) : ∀ st : RdfState,
    runRdfLoop st (l1 ++ l2) =
      match runRdfLoop st l1 with
      | .error e => .error e
      | .ok st2 => runRdfLoop st2 l2 := by
  induction l1 with
  | nil => intro st; rfl
  | cons l rest ih =>
    intro st
    rw [List.cons_append, runRdfLoop_cons, runRdfLoop_cons]
    cases rdfStep st l with
    | error e => rfl
    | ok st2 => exact ih st2

/-- The loop never reads already-flushed blocks: running from a state with
block list `bl` appends the same suffix as running from an empty block
list. -/
theorem runRdfLoop_shift : ∀ (lines : List String) (bl : List Block)
    (cur : Option (List (List ℚ))),
    runRdfLoop ⟨bl, cur⟩ lines =
      match runRdfLoop ⟨[], cur⟩ lines with
      | .error e => .error e
      | .ok st => .ok ⟨bl ++ st.blocks, st.current⟩
  | [], bl, cur => by simp [runRdfLoop]
  | line :: rest, bl, cur => by
    rw [runRdfLoop_cons, runRdfLoop_cons]
    by_cases hs : rdfSkip line = true
    · rw [rdfStep_skip _ _ hs, rdfStep_skip _ _ hs]
      exact runRdfLoop_shift rest bl cur
    · have hs2 : rdfSkip line = false := by simpa using hs
      by_cases hp : (splitWS line.data).length = 2
      · rw [rdfStep_header _ _ hs2 hp, rdfStep_header _ _ hs2 hp]
        cases cur with
        | none =>
          dsimp only
          exact runRdfLoop_shift rest bl (some [])
        | some c =>
          dsimp only
          cases hna : npArray2D c with
          | error e => rfl
          | ok b =>
            dsimp only
            simp only [List.nil_append]
            rw [runRdfLoop_shift rest (bl ++ [b]) (some []),
              runRdfLoop_shift rest [b] (some [])]
            cases runRdfLoop ⟨[], some []⟩ rest with
            | error e => rfl
            | ok st => simp [List.append_assoc]
      · rw [rdfStep_data _ _ hs2 hp, rdfStep_data _ _ hs2 hp]
        cases cur with
        | none => rfl
        | some c =>
          dsimp only
          cases hpr : parseRow (splitWS line.data) with
          | error e => rfl
          | ok row =>
            dsimp only
            exact runRdfLoop_shift rest bl (some (c ++ [row]))

/-- Once a header has been seen, `current` never returns to `None`. -/
theorem runRdfLoop_some_stays : ∀ (lines : List String) (bl : List Block)
    (c : List (List ℚ)) (st : RdfState),
    runRdfLoop ⟨bl, some c⟩ lines = Except.ok st → st.current ≠ none
  | [], bl, c, st, h => by
    simp only [runRdfLoop] at h
    rw [← Except.ok.inj h]
    simp
  | line :: rest, bl, c, st, h => by
    rw [runRdfLoop_cons] at h
    by_cases hs : rdfSkip line = true
    · rw [rdfStep_skip _ _ hs] at h
      exact runRdfLoop_some_stays rest bl c st h
    · have hs2 : rdfSkip line = false := by simpa using hs
      by_cases hp : (splitWS line.data).length = 2
      · rw [rdfStep_header _ _ hs2 hp] at h
        dsimp only at h
        cases hna : npArray2D c with
        | error e => rw [hna] at h; simp at h
        | ok b =>
          rw [hna] at h
          dsimp only at h
          exact runRdfLoop_some_stays rest _ [] st h
      · rw [rdfStep_data _ _ hs2 hp] at h
        dsimp only at h
        cases hpr : parseRow (splitWS line.data) with
        | error e => rw [hpr] at h; simp at h
        | ok row =>
          rw [hpr] at h
          dsimp only at h
          exact runRdfLoop_some_stays rest _ _ st h

/-- From the initial state, an end state with `current = None` means no
retained line was ever processed: no block was flushed. -/
theorem runRdfLoop_none_blocks : ∀ (lines : List String) (st : RdfState),
    runRdfLoop initRdfState lines = Except.ok st → st.current = none →
    st.blocks = []
  | [], st, h, _ => by
    simp only [runRdfLoop] at h
    rw [← Except.ok.inj h]
    rfl
  | line :: rest, st, h, hcur => by
    rw [runRdfLoop_cons] at h
    by_cases hs : rdfSkip line = true
    · rw [rdfStep_skip _ _ hs] at h
      exact runRdfLoop_none_blocks rest st h hcur
    · have hs2 : rdfSkip line = false := by simpa using hs
      by_cases hp : (splitWS line.data).length = 2
      · rw [rdfStep_header _ _ hs2 hp] at h
        dsimp only [initRdfState] at h
        exact absurd hcur (runRdfLoop_some_stays rest [] [] st h)
      · rw [rdfStep_data _ _ hs2 hp] at h
        dsimp only [initRdfState] at h
        simp at h

/-- A successful scan producing exactly one block ends with an empty block
list and that block still pending in `current`. -/
theorem scan_single_block {ls : List String} {b : Block}
    (h : scanBlocks ls = Except.ok [b]) :
    ∃ c, runRdfLoop initRdfState ls = Except.ok ⟨[], some c⟩ ∧
      npArray2D c = Except.ok b := by
  unfold scanBlocks at h
  cases hrun : runRdfLoop initRdfState ls with
  | error e => rw [hrun] at h; simp at h
  | ok st =>
    rw [hrun] at h
    dsimp only at h
    unfold flushFinal at h
    cases hcur : st.current with
    | none =>
      rw [hcur] at h
      dsimp only at h
      have hbl : st.blocks = [] := runRdfLoop_none_blocks ls st hrun hcur
      rw [hbl] at h
      exact absurd (Except.ok.inj h) (by simp)
    | some c =>
      rw [hcur] at h
      dsimp only at h
      cases hna : npArray2D c with
      | error e => rw [hna] at h; simp at h
      | ok b2 =>
        rw [hna] at h
        dsimp only at h
        have hlist : st.blocks ++ [b2] = [b] := Except.ok.inj h
        cases hbl : st.blocks with
        | nil =>
          rw [hbl] at hlist
          simp at hlist
          have hst : st = ⟨[], some c⟩ := by
            cases st
            simp_all
          exact ⟨c, by rw [hst], hlist ▸ hna⟩
        | cons x xs =>
          rw [hbl] at hlist
          simp at hlist

/-- Rerunning the loop body over the same lines from a pending-block state
flushes that block first and then repeats the fresh run. -/
theorem runRdfLoop_second : ∀ (lines : List String) (c : List (List ℚ))
    (b : Block) (st : RdfState),
    npArray2D c = Except.ok b →
    runRdfLoop initRdfState lines = Except.ok st →
    st.current ≠ none →
    runRdfLoop ⟨[], some c⟩ lines = Except.ok ⟨b :: st.blocks, st.current⟩
  | [], c, b, st, hc, hrun, hcur => by
    simp only [runRdfLoop] at hrun
    rw [← Except.ok.inj hrun] at hcur
    simp [initRdfState] at hcur
  | line :: rest, c, b, st, hc, hrun, hcur => by
    rw [runRdfLoop_cons] at hrun ⊢
    by_cases hs : rdfSkip line = true
    · rw [rdfStep_skip _ _ hs] at hrun ⊢
      exact runRdfLoop_second rest c b st hc hrun hcur
    · have hs2 : rdfSkip line = false := by simpa using hs
      by_cases hp : (splitWS line.data).length = 2
      · rw [rdfStep_header _ _ hs2 hp] at hrun ⊢
        dsimp only [initRdfState] at hrun ⊢
        rw [hc]
        dsimp only
        simp only [List.nil_append]
        rw [runRdfLoop_shift rest [b] (some []), hrun]
        rfl
      · rw [rdfStep_data _ _ hs2 hp] at hrun
        dsimp only [initRdfState] at hrun
        simp at hrun

/-- Duplicating the input lines of a one-block file yields the block twice. -/
theorem scanBlocks_dup {ls : List String} {b : Block}
    (h : scanBlocks ls = Except.ok [b]) :
    scanBlocks (ls ++ ls) = Except.ok [b, b] := by
  obtain ⟨c, hrun, hc⟩ := scan_single_block h
  have h2 : runRdfLoop ⟨[], some c⟩ ls = Except.ok ⟨[b], some c⟩ := by
    have := runRdfLoop_second ls c b ⟨[], some c⟩ hc hrun (by simp)
    simpa using this
  unfold scanBlocks
  rw [runRdfLoop_append ls ls initRdfState, hrun]
  dsimp only
  rw [h2]
  dsimp only
  unfold flushFinal
  dsimp only
  rw [hc]
  rfl

/-- Per-element mean of a vector with itself. -/
theorem zipWith_self_div_two (v : List ℚ) :
    (List.zipWith (fun x y => x + y) v v).map (fun x => x / ((1 + 1 : Nat) : ℚ)) =
      v.map (fun x => x / ((0 + 1 : Nat) : ℚ)) := by
  induction v with
  | nil => rfl
  | cons x xs ih =>
    rw [List.zipWith_cons_cons, List.map_cons, List.map_cons, ih]
    congr 1
    push_cast
    ring

/-- Averaging a column over a duplicated block equals averaging it over the
single block. -/
theorem meanCol_dup (j : Nat) (b : Block) : meanCol j [b, b] = meanCol j [b] := by
  unfold meanCol
  simp only [colsOf]
  cases hv : getCol b j with
  | error e => rfl
  | ok v =>
    dsimp only
    unfold npMeanAx0
    dsimp only
    rw [if_pos (by simp), if_pos (by simp)]
    simp only [List.foldl_cons, List.foldl_nil, List.length_cons, List.length_nil, vecAdd]
    rw [zipWith_self_div_two v]

/-- The averaging phase is idempotent under block duplication. -/
theorem rdfOfBlocks_dup (b : Block) : rdfOfBlocks [b, b] = rdfOfBlocks [b] := by
  unfold rdfOfBlocks
  dsimp only
  rw [meanCol_dup 2 b, meanCol_dup 4 b, meanCol_dup 6 b]

/-- Claim C6: RDF averaging is idempotent under block duplication — a file
consisting of two identical copies of a one-block file produces exactly the
output of the single-block file. -/
theorem claim_C6 (ls : List String) (b : Block)
    (h : scanBlocks ls = Except.ok [b]) :
    process_rdf (ls ++ ls) = process_rdf ls := by
  unfold process_rdf
  rw [scanBlocks_dup h, h]
  dsimp only
  exact rdfOfBlocks_dup b

/-- A one-block RDF file. -/
def rdfSingleEx : List String := ["1 2", "0 1 2 3 4 5 6"]

/-- Witness for C6 at a concrete one-block file. -/
theorem claim_C6_witness :
    scanBlocks rdfSingleEx = Except.ok [[[0, 1, 2, 3, 4, 5, 6]]] ∧
    process_rdf (rdfSingleEx ++ rdfSingleEx) = process_rdf rdfSingleEx :=
  ⟨by with_unfolding_all rfl,
    claim_C6 rdfSingleEx [[0, 1, 2, 3, 4, 5, 6]] (by with_unfolding_all rfl)⟩

/-- Nil unfolding of the association-list lookup. -/
theorem alookup_nil {α : Type} (k : Key) : alookup k ([] : List (Key × α)) = none := rfl

/-- Cons unfolding of the association-list lookup. -/
theorem alookup_cons {α : Type} (k : Key) (p : Key × α) (rest : List (Key × α)) :
    alookup k (p :: rest) = if p.1 = k then some p.2 else alookup k rest := rfl

/-- Lookup across an association-list append. -/
theorem alookup_append {α : Type} (k : Key) (l1 l2 : List (Key × α)) :
    alookup k (l1 ++ l2) =
      match alookup k l1 with
      | some v => some v
      | none => alookup k l2 := by
  induction l1 with
  | nil => rfl
  | cons p rest ih =>
    rw [List.cons_append]
    by_cases hp : p.1 = k
    · simp [alookup_cons, hp]
    · simp [alookup_cons, hp, ih]

/-- Cons unfolding of the first-matching-file function. -/
theorem firstFor_cons (f : FoundFile) (rest : List FoundFile) (k : Key) :
    firstFor (f :: rest) k =
      if f.tp = some k then some f else firstFor rest k := by
  by_cases h : f.tp = some k <;> simp [firstFor, List.filterMap_cons, h]

/-- Unfolding equation of one `setdefault` scan step. -/
theorem setdefaultStep_eq (acc : List (Key × FoundFile)) (f : FoundFile) :
    setdefaultStep acc f =
      match f.tp with
      | none => acc
      | some k =>
        match alookup k acc with
        | some _ => acc
        | none => acc ++ [(k, f)] := rfl

/-- The `setdefault` fold keeps, for every key, the first file encountered. -/
theorem foldl_setdefault_lookup : ∀ (files : List FoundFile)
    (acc : List (Key × FoundFile)) (k : Key),
    alookup k (files.foldl setdefaultStep acc) =
      match alookup k acc with
      | some v => some v
      | none => firstFor files k
  | [], acc, k => by
    cases h : alookup k acc <;> simp [h, firstFor]
  | f :: rest, acc, k => by
    rw [List.foldl_cons, setdefaultStep_eq]
    cases htp : f.tp with
    | none =>
      dsimp only
      rw [foldl_setdefault_lookup rest acc k, firstFor_cons]
      rw [if_neg (by simp [htp])]
    | some k2 =>
      dsimp only
      cases hacc : alookup k2 acc with
      | some v0 =>
        dsimp only
        rw [foldl_setdefault_lookup rest acc k, firstFor_cons]
        by_cases hk : k2 = k
        · subst hk
          simp [hacc]
        · rw [if_neg (by simp [htp, hk])]
      | none =>
        dsimp only
        rw [foldl_setdefault_lookup rest (acc ++ [(k2, f)]) k, alookup_append]
        by_cases hk : k2 = k
        · subst hk
          have h1 : alookup k2 [(k2, f)] = some f := by simp [alookup_cons]
          rw [hacc, h1, firstFor_cons, if_pos htp]
        · have h1 : alookup k [(k2, f)] = none := by simp [alookup_cons, alookup_nil, hk]
          rw [h1, firstFor_cons, if_neg (by simp [htp, hk])]
          cases alookup k acc <;> rfl

/-- Every write of the per-key assignment group is tagged with that key. -/
theorem recWrites_fst (k : Key) (d c : Option (List String)) :
    ∀ x ∈ recWrites k d c, x.1 = k := by
  intro x hx
  cases d with
  | none => simp [recWrites] at hx
  | some dl =>
    cases c with
    | none => simp [recWrites] at hx
    | some cl =>
      simp only [recWrites] at hx
      cases ha : avg_density dl with
      | error e => rw [ha] at hx; simp at hx
      | ok q =>
        rw [ha] at hx
        cases hl : last_diff_visc cl with
        | error e =>
          rw [hl] at hx
          simp at hx
          rw [hx]
        | ok dv =>
          rw [hl] at hx
          simp at hx
          rcases hx with rfl | rfl | rfl <;> rfl

/-- The per-key assignment group never writes the same field twice. -/
theorem recWrites_nodup (k : Key) (d c : Option (List String)) :
    (recWrites k d c).Nodup := by
  cases d with
  | none => simp [recWrites]
  | some dl =>
    cases c with
    | none => simp [recWrites]
    | some cl =>
      simp only [recWrites]
      cases ha : avg_density dl with
      | error e => simp
      | ok q =>
        cases hl : last_diff_visc cl with
        | error e => simp
        | ok dv => simp

/-- The key of any write in the loop trace comes from the key list. -/
theorem keyWrites_fst_mem (d c : Key → Option (List String)) :
    ∀ (ks : List Key) (x : Key × FieldName), x ∈ keyWrites d c ks → x.1 ∈ ks
  | [], x, hx => by simp [keyWrites] at hx
  | k :: ks, x, hx => by
    rw [keyWrites] at hx
    rcases List.mem_append.mp hx with h | h
    · rw [recWrites_fst k (d k) (c k) x h]
      exact List.mem_cons_self k ks
    · exact List.mem_cons_of_mem k (keyWrites_fst_mem d c ks x h)

/-- The whole assignment trace is duplicate-free when the key list is. -/
theorem keyWrites_nodup (d c : Key → Option (List String)) :
    ∀ ks : List Key, ks.Nodup → (keyWrites d c ks).Nodup
  | [], _ => List.nodup_nil
  | k :: ks, h => by
    rw [keyWrites, List.nodup_append]
    obtain ⟨hk, hks⟩ := List.nodup_cons.mp h
    refine ⟨recWrites_nodup k (d k) (c k), keyWrites_nodup d c ks hks, ?_⟩
    intro x hx1 hx2
    have h1 : x.1 = k := recWrites_fst k (d k) (c k) x hx1
    have h2 : x.1 ∈ ks := keyWrites_fst_mem d c ks x hx2
    rw [h1] at h2
    exact hk h2

/-- `all_keys` contains no duplicate condition key. -/
theorem allKeys_nodup (dfiles cfiles : List FoundFile) :
    (allKeys dfiles cfiles).Nodup := by
  unfold allKeys
  exact (List.perm_insertionSort keyLE _).symm.nodup (List.nodup_dedup _)

/-- Claim C8: records accumulate monotonically — the scan maps keep, for
every condition key, only the first file encountered (the `setdefault`
first-wins policy), and the aggregation loop's assignment trace writes each
(key, field) pair at most once, so no set value is ever overwritten. -/
theorem claim_C8 :
    (∀ (files : List FoundFile) (k : Key),
      alookup k (collectPaths files) = firstFor files k) ∧
    (∀ dfiles cfiles : List FoundFile, (allWrites dfiles cfiles).Nodup) := by
  constructor
  · intro files k
    unfold collectPaths
    rw [foldl_setdefault_lookup files [] k]
    rfl
  · intro dfiles cfiles
    unfold allWrites
    exact keyWrites_nodup _ _ _ (allKeys_nodup dfiles cfiles)

/-- Counterexample to C1: with condition (300,1) fully populated and
condition (400,1) having only a density file, the report has two rows, but
the second renders the `MISSING` placeholder in the density column and
blanks in the diffusion/viscosity columns — no numeric density appears,
because the aggregator attempts no parse for a key lacking either file. -/
theorem claim_C1_counterexample :
    resultRows dfilesEx cfilesEx =
      [⟨300, 1, .num 1001, .num (2 / 1000000000), .num (6 / 10)⟩,
       ⟨400, 1, .missing, .blank, .blank⟩] ∧
    buildRecord (some densLinesEx) none = emptyRecord := by
  constructor
  · with_unfolding_all rfl
  · rfl

/-- Amended C1: the aggregator attempts the parses only for keys having BOTH
files; within such an attempt a density-parse failure leaves all three
fields unset while a key/value-parse failure leaves the already-assigned
density set; a key with either file missing gets an empty record; any
incomplete record's row renders `MISSING` in the density column with blank
diffusion and viscosity columns; the two-key scenario (one full, one
density-only) yields two rows, the second in that `MISSING` form. -/
theorem claim_C1_amended :
    (∀ (d c : List String) (q : ℚ) (dv : ℚ × ℚ),
      avg_density d = Except.ok q → last_diff_visc c = Except.ok dv →
      buildRecord (some d) (some c) = ⟨some q, some dv.1, some dv.2⟩) ∧
    (∀ (d c : List String) (q : ℚ) (e : String),
      avg_density d = Except.ok q → last_diff_visc c = Except.error e →
      buildRecord (some d) (some c) = ⟨some q, none, none⟩) ∧
    (∀ (d c : List String) (e : String),
      avg_density d = Except.error e →
      buildRecord (some d) (some c) = emptyRecord) ∧
    (∀ d : Option (List String), buildRecord d none = emptyRecord) ∧
    (∀ c : Option (List String), buildRecord none c = emptyRecord) ∧
    (∀ (k : Key) (r : Record),
      r.density = none ∨ r.self_diffusion = none ∨ r.viscosity = none →
      rowOf k r = ⟨k.1, k.2, .missing, .blank, .blank⟩) ∧
    resultRows dfilesEx cfilesEx =
      [⟨300, 1, .num 1001, .num (2 / 1000000000), .num (6 / 10)⟩,
       ⟨400, 1, .missing, .blank, .blank⟩] := by
  refine ⟨?_, ?_, ?_, ?_, ?_, ?_, by with_unfolding_all rfl⟩
  · intro d c q dv h1 h2
    simp [buildRecord, h1, h2]
  · intro d c q e h1 h2
    simp [buildRecord, h1, h2]
  · intro d c e h1
    simp [buildRecord, h1, emptyRecord]
  · intro d
    cases d <;> rfl
  · intro c
    cases c <;> rfl
  · intro k r h
    rcases r with ⟨rd, rs, rv⟩
    cases rd <;> cases rs <;> cases rv <;> simp_all [rowOf]

/-- Witness for the amended C1 at concrete files: full record, key/value
failure keeping density, density failure keeping nothing, and the
`MISSING` row of an empty record. -/
theorem claim_C1_witness :
    buildRecord (some densLinesEx) (some calcLinesEx) =
      ⟨some 1001, some (2 / 1000000000), some (6 / 10)⟩ ∧
    buildRecord (some densLinesEx) (some ["# nothing"]) = ⟨some 1001, none, none⟩ ∧
    buildRecord (some ["# empty"]) (some calcLinesEx) = emptyRecord ∧
    rowOf (400, 1) emptyRecord = ⟨400, 1, .missing, .blank, .blank⟩ :=
  ⟨claim_C1_amended.1 densLinesEx calcLinesEx 1001 (2 / 1000000000, 6 / 10)
      (by with_unfolding_all rfl) (by with_unfolding_all rfl),
    claim_C1_amended.2.1 densLinesEx ["# nothing"] 1001 errNoData
      (by with_unfolding_all rfl) (by with_unfolding_all rfl),
    claim_C1_amended.2.2.1 ["# empty"] calcLinesEx errNoDensity
      (by with_unfolding_all rfl),
    claim_C1_amended.2.2.2.2.2.1 (400, 1) emptyRecord (Or.inl rfl)⟩

end SCW
